import Mathlib

/-!
Verification of the core simulation of the `composite` 2D character-controller
repository (files `src/main.rs`, `src/collisions.rs`, `src/level.rs`).

The collision and movement code computes with `f32` vectors (glam `Vec2`);
it is modelled here over the exact reals: a component-wise 2D vector type,
`Real.sqrt` for `length`, and real division.  Rust `f32::signum` never
returns `0` (it maps `+0.0` to `1.0` and `-0.0` to `-1.0`): it is modelled
by `signumf` below, which sends an exact zero to `1`, matching the `+0.0`
that the exact-zero determinants and differences appearing in this
development produce.  The one genuinely IEEE-specific spot, division by a
zero cross product in `line_intersect`, is modelled by an explicit
zero-divisor branch returning the same observable result (no intersection)
that the NaN/infinity arithmetic of the source produces; see the comment on
`line_intersect`.

The level builder (`level.rs`) only compares points for equality, adds,
multiplies, and tests parallelism on integer multiples of the grid size,
so it is modelled computably over `ℤ` in the second half of the file.
-/

noncomputable section

open scoped Classical


/-- Two-dimensional vector with real components, modelling glam `Vec2`. -/
@[ext]
structure Vec2 where
  x : ℝ
  y : ℝ

instance : Zero Vec2 := ⟨⟨0, 0⟩⟩

instance : Add Vec2 := ⟨fun a b => ⟨a.x + b.x, a.y + b.y⟩⟩

instance : Sub Vec2 := ⟨fun a b => ⟨a.x - b.x, a.y - b.y⟩⟩

instance : Neg Vec2 := ⟨fun a => ⟨-a.x, -a.y⟩⟩

/-- Scalar multiplication on the right, `v * k` in the Rust source. -/
def Vec2.smul (a : Vec2) (k : ℝ) : Vec2 := ⟨a.x * k, a.y * k⟩

/-- Dot product. -/
def Vec2.dot (a b : Vec2) : ℝ := a.x * b.x + a.y * b.y

/-- glam `length_squared`. -/
def Vec2.lsq (a : Vec2) : ℝ := a.x * a.x + a.y * a.y

/-- glam `length`. -/
def Vec2.length (a : Vec2) : ℝ := Real.sqrt (Vec2.lsq a)

/-- glam `normalize`: the vector divided by its length.  The source only
calls it on nonzero vectors. -/
def Vec2.normalize (a : Vec2) : Vec2 := ⟨a.x / a.length, a.y / a.length⟩

/-- glam `normalize_or_zero`: the zero vector has zero (hence non-finite
reciprocal) length and is sent to zero; every other vector is normalized. -/
def Vec2.normalizeOrZero (a : Vec2) : Vec2 :=
  if a.x = 0 ∧ a.y = 0 then ⟨0, 0⟩ else a.normalize

/-- Model of Rust `f32::signum`: `1` for positive values and `+0.0`,
`-1` for negative values and `-0.0`.  The exact-real model only has a
single zero, which corresponds to `+0.0` for the determinants computed
in this development, so zero is sent to `1`. -/
def signumf (x : ℝ) : ℝ := if x < 0 then -1 else 1

/-- Mathematical sign in `{-1, 0, 1}`, the reading of the word `sign`
used by the specification. -/
def msign (x : ℝ) : ℝ := if x < 0 then -1 else if x = 0 then 0 else 1

-- Constants of `main.rs` / `collisions.rs`.  `0.166` and `1e-6` are not
-- exactly representable in `f32`; the exact rationals are used here, which
-- does not affect any property proved below.

def EPSILON : ℝ := 1 / 1000000

def PLAYER_MAX_SPEED : ℝ := 300

def MAX_JUMP_TIMER : ℝ := 166 / 1000

def MAX_GROUNDED_TIMER : ℝ := 166 / 1000

def MAX_WALLED_TIMER : ℝ := 166 / 1000

def JUMP_VELOCITY : ℝ := 540

def WALL_JUMP_VELOCITY_Y : ℝ := 270

def WALL_JUMP_VELOCITY_X : ℝ := 468

def GRAVITY_STRENGTH : ℝ := 1800

def WALL_JUMP_ACCELERATION_REDUCTION : ℝ := 1 / 2

def JUMP_RELEASE_VELOCITY_DIVISOR : ℝ := 3

def NORMAL_DOT_THRESHOLD : ℝ := 4 / 5

def GROUND_NORMAL_Y_THRESHOLD : ℝ := 1 / 100

def CEILING_NORMAL_Y_THRESHOLD : ℝ := -1 / 100

def RAYCAST_DIRECTION_SCALE : ℝ := 10000

def RAYCAST_DIRECTION : Vec2 := ⟨2, 1⟩

def TOUCH_THRESHOLD : ℝ := 1 / 2

def DISTANCE_CALCULATION_RADIUS_MULTIPLIER : ℝ := 2

/-- `collisions.rs` `cross_product`. -/
def cross_product (a b : Vec2) : ℝ := a.x * b.y - a.y * b.x

/-- `collisions.rs` `side_of_line_detection`: the Rust-`signum` of the
orientation determinant. -/
def side_of_line_detection (line_start line_end point : Vec2) : ℝ :=
  signumf ((line_end.x - line_start.x) * (point.y - line_start.y) -
    (line_end.y - line_start.y) * (point.x - line_start.x))

/-- `collisions.rs` `line_intersect`.  The source divides by the cross
product `r_cross_s` unconditionally; when it is zero the IEEE quotients
`t` and `u` are `NaN` or infinite and the range test
`(0.0..=1.0).contains` is false for all of them, so the function returns
`None`.  The exact-real model makes that arithmetic fact an explicit
branch with the same observable result. -/
def line_intersect (line_1_start line_1_end line_2_start line_2_end : Vec2) :
    Option Vec2 :=
  let line_1 := line_1_end - line_1_start
  let line_2 := line_2_end - line_2_start
  let r_cross_s := cross_product line_1 line_2
  if r_cross_s = 0 then none
  else
    let a_to_c := line_2_start - line_1_start
    let t := cross_product a_to_c line_2 / r_cross_s
    let u := cross_product a_to_c line_1 / r_cross_s
    if 0 ≤ t ∧ t ≤ 1 ∧ 0 ≤ u ∧ u ≤ 1 then
      some ⟨line_1_start.x + t * line_1.x, line_1_start.y + t * line_1.y⟩
    else none

/-- `collisions.rs` `find_projection`. -/
def find_projection (start wend point : Vec2) (radius : ℝ) : ℝ × Vec2 :=
  let point_vec := point - start
  let line_vec := wend - start
  let line_vec_normalized := Vec2.normalize line_vec
  let d := Vec2.dot point_vec line_vec_normalized
  let projection_point := (Vec2.smul line_vec_normalized d) + start
  if d < 0 then
    (Vec2.lsq point_vec + radius * DISTANCE_CALCULATION_RADIUS_MULTIPLIER,
      projection_point)
  else if d ^ 2 > Vec2.lsq (wend - start) then
    (Vec2.lsq (point - wend) + radius * DISTANCE_CALCULATION_RADIUS_MULTIPLIER,
      projection_point)
  else
    (Vec2.lsq (point - projection_point), projection_point)

/-- Axis-aligned bounding box, `level.rs` `Aabb`. -/
structure Aabb where
  min : Vec2
  max : Vec2

/-- `Aabb::from_point_radius`. -/
def Aabb.from_point_radius (center : Vec2) (radius : ℝ) : Aabb :=
  ⟨center - ⟨radius, radius⟩, center + ⟨radius, radius⟩⟩

/-- `Aabb::overlaps`: componentwise inclusive interval intersection. -/
def Aabb.overlaps (a other : Aabb) : Prop :=
  a.min.x ≤ other.max.x ∧ other.min.x ≤ a.max.x ∧
  a.min.y ≤ other.max.y ∧ other.min.y ≤ a.max.y

/-- `Aabb::expand`. -/
def Aabb.expand (a : Aabb) (amount : ℝ) : Aabb :=
  ⟨a.min - ⟨amount, amount⟩, a.max + ⟨amount, amount⟩⟩

/-- `level.rs` `Polygon`, with real coordinates as consumed by the collision
resolver.  The render-only random `color` field is omitted. -/
structure Polygon where
  points : List Vec2
  collision_side : ℝ
  aabb : Aabb

/-- `main.rs` `Physics` component. -/
structure Physics where
  prev_position : Vec2
  velocity : Vec2
  acceleration : Vec2
  radius : ℝ
  normal : Vec2

/-- `main.rs` `Player` component. -/
structure PlayerData where
  jump_timer : ℝ
  grounded_timer : ℝ
  wall_timer : ℝ
  wall_direction : ℝ
  has_wall_jumped : Bool
  is_grounded : Bool
  last_wall_normal : Option Vec2

/-- The edges the collision loops iterate over: `points[i-1]..points[i]`
for `i` in `1..points.len()`. -/
def polygonEdges (points : List Vec2) : List (Vec2 × Vec2) :=
  points.zip points.tail

/-- Mutable state threaded through `s_collision`'s polygon loop: the
player transform's translation, the physics velocity (mutated in the
colliding branch), the accumulated `adjustment` and `new_player_normal`,
and the `Player` gameplay data mutated in the touching branch. -/
structure CState where
  translation : Vec2
  velocity : Vec2
  adjustment : Vec2
  new_normal : Vec2
  pd : PlayerData

/-- Result of one `s_collision` pass. -/
structure CollisionOut where
  translation : Vec2
  physics : Physics
  player : PlayerData

/-- Ray-parity counter of `s_collision` for one polygon: the number of
edges hit by the ray `player_pos -> player_pos + (2,1) * 10000`
(`intersect_counter` in the source, a separate loop preceding the
narrow-phase loop). -/
def ray_parity (player_pos : Vec2) (poly : Polygon) : ℕ :=
  (polygonEdges poly.points).foldl
    (fun c e =>
      if (line_intersect e.1 e.2 player_pos
          (player_pos + Vec2.smul RAYCAST_DIRECTION RAYCAST_DIRECTION_SCALE)).isSome
      then c + 1 else c) 0

/-- The `colliding_with_polygon` flag of `s_collision` for one polygon:
some edge passes the previous-side gate and has squared distance at most
`radius^2`.  The source accumulates this flag with `||` inside the
narrow-phase loop; since the flag is only read after the loop and does not
influence the per-edge effects, folding it separately is equivalent. -/
def polygon_collides (ph : Physics) (player_pos : Vec2) (poly : Polygon) : Prop :=
  (polygonEdges poly.points).foldl
    (fun b e =>
      b ∨ (side_of_line_detection e.1 e.2 ph.prev_position = poly.collision_side ∧
        (find_projection e.1 e.2 player_pos ph.radius).1 ≤ ph.radius ^ 2)) False

/-- Narrow-phase body of `s_collision` for a single edge: the
previous-side gate, then the touching block (normal accumulation and
wall/ground timer re-arms), then the colliding block (ceiling test on the
unscaled push direction, then the penetration-scaled `delta` merged into
`adjustment` by per-axis larger magnitude). -/
def edge_narrow (ph : Physics) (player_pos : Vec2) (cs : ℝ) (s : CState)
    (e : Vec2 × Vec2) : CState :=
  if side_of_line_detection e.1 e.2 ph.prev_position ≠ cs then s
  else
    let fp := find_projection e.1 e.2 player_pos ph.radius
    let distance_sq := fp.1
    let projection := fp.2
    let s1 :=
      if distance_sq ≤ (ph.radius + TOUCH_THRESHOLD) ^ 2 then
        let normal_dir := Vec2.normalizeOrZero (player_pos - projection)
        if CEILING_NORMAL_Y_THRESHOLD ≤ normal_dir.y then
          let pd1 :=
            if NORMAL_DOT_THRESHOLD ≤ |normal_dir.x| then
              { s.pd with wall_timer := MAX_WALLED_TIMER,
                          wall_direction := signumf normal_dir.x,
                          last_wall_normal := some normal_dir,
                          has_wall_jumped := false }
            else s.pd
          let pd2 :=
            if GROUND_NORMAL_Y_THRESHOLD < normal_dir.y then
              { pd1 with grounded_timer := MAX_GROUNDED_TIMER,
                         is_grounded := true,
                         wall_timer := 0,
                         wall_direction := 0,
                         has_wall_jumped := false }
            else pd1
          { s with new_normal := s.new_normal - normal_dir, pd := pd2 }
        else s
      else s
    if distance_sq ≤ ph.radius ^ 2 then
      let delta0 := Vec2.normalizeOrZero (player_pos - projection)
      let s2 :=
        if delta0.y < CEILING_NORMAL_Y_THRESHOLD then
          { s1 with velocity := ⟨s1.velocity.x, 0⟩ }
        else s1
      let delta := Vec2.smul delta0 (ph.radius - Real.sqrt distance_sq)
      let adjx := if |s2.adjustment.x| < |delta.x| then delta.x else s2.adjustment.x
      let adjy := if |s2.adjustment.y| < |delta.y| then delta.y else s2.adjustment.y
      { s2 with adjustment := ⟨adjx, adjy⟩ }
    else s1

/-- Per-polygon body of `s_collision`: broad-phase AABB skip, ray-parity
count, narrow-phase edge fold, then the point-in-polygon rescue that
overwrites the translation with `prev_position`. -/
def poly_pass (ph : Physics) (player_pos : Vec2) (s : CState) (poly : Polygon) :
    CState :=
  if ¬ Aabb.overlaps
      (Aabb.expand (Aabb.from_point_radius player_pos ph.radius)
        (ph.radius * (1 / 2)))
      poly.aabb then s
  else
    let s1 := (polygonEdges poly.points).foldl
      (edge_narrow ph player_pos poly.collision_side) s
    if polygon_collides ph player_pos poly ∧ ray_parity player_pos poly % 2 = 1
    then { s1 with translation := ph.prev_position }
    else s1

/-- `collisions.rs` `s_collision`: one resolver pass over the level's
polygon list.  `player_pos` is captured from the transform before the
loop and is not refreshed by the rescue, exactly as in the source; at the
end the accumulated normal is renormalized and written back, the velocity
component along it is removed, and the accumulated `adjustment` is added
to the translation. -/
def s_collision (level : List Polygon) (translation0 : Vec2) (ph : Physics)
    (pd : PlayerData) : CollisionOut :=
  let player_pos := translation0
  let st := level.foldl (poly_pass ph player_pos)
    ⟨translation0, ph.velocity, 0, 0, pd⟩
  let new_player_normal := Vec2.normalizeOrZero st.new_normal
  let velocity_adjustment :=
    Vec2.smul new_player_normal (Vec2.dot st.velocity new_player_normal)
  { translation := st.translation + st.adjustment
  , physics := { ph with velocity := st.velocity - velocity_adjustment,
                         normal := new_player_normal }
  , player := st.pd }

/-- Player position for the ceiling-test scenario: just below a
horizontal edge at height `1`, penetrating it by `1/200`. -/
def posC3 : Vec2 := ⟨0, 1 / 200⟩

/-- A single-segment polygon acting as a ceiling edge from `(-4,1)` to
`(4,1)`, with the solid side (collision side) below the edge. -/
def segPolyC3 : Polygon := ⟨[⟨-4, 1⟩, ⟨4, 1⟩], -1, ⟨⟨-4, 1⟩, ⟨4, 1⟩⟩⟩

/-- Physics state for the ceiling-test scenario: previous position below
the edge, nonzero upward velocity, radius `1`. -/
def phC3 : Physics := ⟨⟨0, -1⟩, ⟨3, 5⟩, ⟨0, 0⟩, 1, ⟨0, 0⟩⟩

/-- Quiescent `Player` gameplay data. -/
def pdZero : PlayerData := ⟨0, 0, 0, 0, false, false, none⟩

/-- Ordered pair of acceleration scalers of `main.rs`: rate `12` per
second with active input, `24` per second when decelerating. -/
def PLAYER_ACCELERATION_SCALERS : ℝ × ℝ := (12, 24)

/-- Keyboard snapshot consumed by `s_input` each tick: the four arrow
keys plus the edge-triggered space press and release. -/
structure KeyInput where
  up : Bool
  down : Bool
  left : Bool
  right : Bool
  space_pressed : Bool
  space_released : Bool

/-- Result of `s_input`: the normalized direction resource plus the
mutated player and physics state. -/
structure InputOut where
  dir : Vec2
  pd : PlayerData
  ph : Physics

/-- `main.rs` `s_input`, the branch taken when the player exists and
escape is not pressed: accumulate the arrow-key direction, arm the jump
buffer on a space press, divide `velocity.y` by `3` on a space release
while `velocity.y > EPSILON`, then store the normalized direction. -/
def s_input (k : KeyInput) (pd : PlayerData) (ph : Physics) : InputOut :=
  let d0 : Vec2 := ⟨0, 0⟩
  let d1 := if k.up then d0 + ⟨0, 1⟩ else d0
  let d2 := if k.down then d1 - ⟨0, 1⟩ else d1
  let d3 := if k.left then d2 - ⟨1, 0⟩ else d2
  let d4 := if k.right then d3 + ⟨1, 0⟩ else d3
  let pd1 :=
    if k.space_pressed then { pd with jump_timer := MAX_JUMP_TIMER } else pd
  let ph1 :=
    if k.space_released ∧ EPSILON < ph.velocity.y then
      { ph with velocity :=
          ⟨ph.velocity.x, ph.velocity.y / JUMP_RELEASE_VELOCITY_DIVISOR⟩ }
    else ph
  ⟨Vec2.normalizeOrZero d4, pd1, ph1⟩

/-- Result of `s_movement` or of a full input-then-movement tick. -/
structure MoveOut where
  translation : Vec2
  ph : Physics
  pd : PlayerData

/-- `main.rs` `s_movement`: clamped timestep, input rotation onto the
contact surface, wall push-off detection, target-velocity acceleration
with the normal component removed, gravity along `-Y` when airborne or
pushing off a wall and along the normal otherwise, the jump and
wall-jump impulses, and semi-implicit Euler integration.  The source
mutates velocity and player data inside one jump branch; the two
`ite` chains below duplicate the same conditions, which is equivalent. -/
def s_movement (dir : Vec2) (dt0 : ℝ) (translation : Vec2) (ph : Physics)
    (pd : PlayerData) : MoveOut :=
  let dt := min dt0 (1 / 30)
  let player_falling := Vec2.lsq ph.normal < EPSILON
  let no_input := Vec2.lsq dir < EPSILON
  let effective_input_dir :=
    if ¬ no_input ∧ ¬ player_falling ∧
        |Vec2.dot dir ph.normal| < NORMAL_DOT_THRESHOLD then
      let new_input_dir : Vec2 := ⟨ph.normal.y, -ph.normal.x⟩
      if Vec2.dot new_input_dir dir < 0 then new_input_dir.smul (-1)
      else new_input_dir
    else dir
  let player_move_off_wall :=
    NORMAL_DOT_THRESHOLD ≤ |ph.normal.x| ∧
    NORMAL_DOT_THRESHOLD ≤ |effective_input_dir.x| ∧
    signumf ph.normal.x ≠ signumf effective_input_dir.x
  let accel0 :=
    ((effective_input_dir.smul PLAYER_MAX_SPEED) - ph.velocity).smul
      (if no_input then PLAYER_ACCELERATION_SCALERS.2
        else PLAYER_ACCELERATION_SCALERS.1)
  let accel1 :=
    accel0.smul
      (if pd.has_wall_jumped then WALL_JUMP_ACCELERATION_REDUCTION else 1)
  let accel2 := if player_falling then (⟨accel1.x, 0⟩ : Vec2) else accel1
  let accel3 :=
    if ¬ player_move_off_wall then
      accel2 - ph.normal.smul (Vec2.dot accel2 ph.normal)
    else accel2
  let vel1 :=
    if player_move_off_wall ∨ player_falling then
      (⟨ph.velocity.x, ph.velocity.y - GRAVITY_STRENGTH * dt⟩ : Vec2)
    else ph.velocity + ph.normal.smul (GRAVITY_STRENGTH * dt)
  let vel2 :=
    if 0 < pd.jump_timer then
      if 0 < pd.grounded_timer then (⟨vel1.x, JUMP_VELOCITY⟩ : Vec2)
      else if 0 < pd.wall_timer then
        (⟨pd.wall_direction * WALL_JUMP_VELOCITY_X, WALL_JUMP_VELOCITY_Y⟩ : Vec2)
      else vel1
    else vel1
  let pd2 :=
    if 0 < pd.jump_timer then
      if 0 < pd.grounded_timer then
        { pd with jump_timer := 0, grounded_timer := 0 }
      else if 0 < pd.wall_timer then
        { pd with jump_timer := 0, wall_timer := 0, wall_direction := 0,
                  has_wall_jumped := true }
      else pd
    else pd
  let vel3 := vel2 + accel3.smul dt
  ⟨translation + vel3.smul dt,
    { ph with prev_position := translation, velocity := vel3,
              acceleration := accel3 },
    pd2⟩

/-- One input-then-movement tick, in the fixed `Update` schedule order of
`main.rs` (`s_movement` runs after `s_input`). -/
def input_movement_tick (k : KeyInput) (dt : ℝ) (translation : Vec2)
    (ph : Physics) (pd : PlayerData) : MoveOut :=
  let io := s_input k pd ph
  s_movement io.dir dt translation io.ph io.pd

/-- `main.rs` `s_timers`: decay each of the three timers by `dt`,
clamping at zero, with the grounded flag derived from the grounded timer
and the wall direction cleared when the wall timer expires. -/
def s_timers (dt : ℝ) (pd : PlayerData) : PlayerData :=
  let pd1 :=
    if 0 < pd.jump_timer then
      if pd.jump_timer - dt < 0 then { pd with jump_timer := 0 }
      else { pd with jump_timer := pd.jump_timer - dt }
    else pd
  let pd2 :=
    if 0 < pd1.grounded_timer then
      if pd1.grounded_timer - dt < 0 then
        { pd1 with grounded_timer := 0, is_grounded := false }
      else
        { pd1 with grounded_timer := pd1.grounded_timer - dt,
                   is_grounded := true }
    else { pd1 with is_grounded := false }
  let pd3 :=
    if 0 < pd2.wall_timer then
      if pd2.wall_timer - dt < 0 then
        { pd2 with wall_timer := 0, wall_direction := 0 }
      else { pd2 with wall_timer := pd2.wall_timer - dt }
    else pd2
  pd3

/-- Player position for the rescue scenario: inside the square polygon,
penetrating its bottom edge. -/
def posC1 : Vec2 := ⟨2, 1 / 2⟩

/-- A closed square ring `(0,0)-(4,0)-(4,4)-(0,4)-(0,0)` with collision
side `-1` (the sign its shoelace sum would produce) and its bounding
box. -/
def sqPolyC1 : Polygon :=
  ⟨[⟨0, 0⟩, ⟨4, 0⟩, ⟨4, 4⟩, ⟨0, 4⟩, ⟨0, 0⟩], -1, ⟨⟨0, 0⟩, ⟨4, 4⟩⟩⟩

/-- Physics state for the rescue scenario: previous position below the
square, at rest, radius `1`. -/
def phC1 : Physics := ⟨⟨2, -1⟩, ⟨0, 0⟩, ⟨0, 0⟩, 1, ⟨0, 0⟩⟩

/-- Gameplay data after the rescue scenario's pass: the bottom-edge
contact re-arms the grounded timer. -/
def pdGroundedC1 : PlayerData := ⟨0, 166 / 1000, 0, 0, false, true, none⟩

/-- Timers used by the C8 witness. -/
def pdC8 : PlayerData := ⟨1 / 10, 0, 2 / 100, 0, false, false, none⟩

/-- Keyboard snapshot with only a space release. -/
def kC4 : KeyInput := ⟨false, false, false, false, false, true⟩

/-- Grounded physics state at rest on a flat floor, for the release-tick
scenario. -/
def phC4 : Physics := ⟨⟨0, 0⟩, ⟨0, 0⟩, ⟨0, 0⟩, 12, ⟨0, 1⟩⟩

/-- Physics state with upward velocity `600`, for the input-phase
release rule. -/
def phC4b : Physics := ⟨⟨0, 0⟩, ⟨0, 600⟩, ⟨0, 0⟩, 12, ⟨0, 1⟩⟩

/-- Player data with a buffered jump and coyote time remaining. -/
def pdC4 : PlayerData := ⟨1 / 10, 1 / 10, 0, 0, false, true, none⟩

/-- Two-dimensional vector with integer components: the exact model of
the level builder.  Every coordinate the builder manipulates is an
integer multiple of the grid size (the source uses `f32`, which is exact
on these values). -/
@[ext]
structure Vec2Z where
  x : ℤ
  y : ℤ
deriving DecidableEq

instance : Sub Vec2Z := ⟨fun a b => ⟨a.x - b.x, a.y - b.y⟩⟩

/-- Dot product over `ℤ`. -/
def Vec2Z.dot (a b : Vec2Z) : ℤ := a.x * b.x + a.y * b.y

/-- Squared length over `ℤ`. -/
def Vec2Z.lsq (a : Vec2Z) : ℤ := a.x * a.x + a.y * a.y

/-- Tile value at row `y`, column `x`; the default `0` is never consulted
by the source, whose guards keep every access in bounds. -/
def tileAt (grid : List (List ℕ)) (y x : ℕ) : ℕ := (grid.getD y []).getD x 0

/-- Length of row `y` of the grid. -/
def rowLen (grid : List (List ℕ)) (y : ℕ) : ℕ := (grid.getD y []).length

/-- The grid vertex `(x * grid_size, y * grid_size)`. -/
def gridPoint (g : ℤ) (x y : ℕ) : Vec2Z := ⟨(x : ℤ) * g, (y : ℤ) * g⟩

/-- Edge emission of `generate_level_polygons` for one cell, in source
order: squares push left, right, top, bottom edges where the neighbor is
empty or out of bounds; right triangles push the hypotenuse
unconditionally and then their two guarded axis-aligned legs; tiles
`6..9` and unknown tiles emit nothing.  Edges are consecutive point pairs
of the flat `line_points` list. -/
def tileEdges (grid : List (List ℕ)) (g : ℤ) (y x : ℕ) : List Vec2Z :=
  match tileAt grid y x with
  | 1 =>
    (if x = 0 ∨ tileAt grid y (x - 1) = 0 then
      [gridPoint g x y, gridPoint g x (y + 1)] else []) ++
    (if x = rowLen grid y - 1 ∨ tileAt grid y (x + 1) = 0 then
      [gridPoint g (x + 1) y, gridPoint g (x + 1) (y + 1)] else []) ++
    (if y = 0 ∨ tileAt grid (y - 1) x = 0 then
      [gridPoint g x y, gridPoint g (x + 1) y] else []) ++
    (if y = grid.length - 1 ∨ tileAt grid (y + 1) x = 0 then
      [gridPoint g x (y + 1), gridPoint g (x + 1) (y + 1)] else [])
  | 2 =>
    [gridPoint g x y, gridPoint g (x + 1) (y + 1)] ++
    (if y = grid.length - 1 ∨ tileAt grid (y + 1) x = 0 then
      [gridPoint g x (y + 1), gridPoint g (x + 1) (y + 1)] else []) ++
    (if x = 0 ∨ tileAt grid y (x - 1) = 0 then
      [gridPoint g x y, gridPoint g x (y + 1)] else [])
  | 3 =>
    [gridPoint g (x + 1) y, gridPoint g x (y + 1)] ++
    (if y = grid.length - 1 ∨ tileAt grid (y + 1) x = 0 then
      [gridPoint g x (y + 1), gridPoint g (x + 1) (y + 1)] else []) ++
    (if x = rowLen grid y - 1 ∨ tileAt grid y (x + 1) = 0 then
      [gridPoint g (x + 1) y, gridPoint g (x + 1) (y + 1)] else [])
  | 4 =>
    [gridPoint g x (y + 1), gridPoint g (x + 1) y] ++
    (if y = 0 ∨ tileAt grid (y - 1) x = 0 then
      [gridPoint g x y, gridPoint g (x + 1) y] else []) ++
    (if x = 0 ∨ tileAt grid y (x - 1) = 0 then
      [gridPoint g x y, gridPoint g x (y + 1)] else [])
  | 5 =>
    [gridPoint g (x + 1) (y + 1), gridPoint g x y] ++
    (if y = 0 ∨ tileAt grid (y - 1) x = 0 then
      [gridPoint g x y, gridPoint g (x + 1) y] else []) ++
    (if x = rowLen grid y - 1 ∨ tileAt grid y (x + 1) = 0 then
      [gridPoint g (x + 1) y, gridPoint g (x + 1) (y + 1)] else [])
  | _ => []

/-- Step 1 of the builder: the flat `line_points` list, rows outer,
columns inner. -/
def emitEdges (grid : List (List ℕ)) (g : ℤ) : List Vec2Z :=
  (List.range grid.length).flatMap fun y =>
    (List.range (rowLen grid y)).flatMap fun x => tileEdges grid g y x

/-- Shared-endpoint detection of the removal scan, following the
source's if-else chain: the flat indices of the shared pair and of the
two unique endpoints. -/
def sharedData (pts : List Vec2Z) (i j : ℕ) : Option ((ℕ × ℕ) × (ℕ × ℕ)) :=
  let l1s := pts.getD (i * 2) ⟨0, 0⟩
  let l1e := pts.getD (i * 2 + 1) ⟨0, 0⟩
  let l2s := pts.getD (j * 2) ⟨0, 0⟩
  let l2e := pts.getD (j * 2 + 1) ⟨0, 0⟩
  if l1s = l2s then some ((i * 2, j * 2), (i * 2 + 1, j * 2 + 1))
  else if l1s = l2e then some ((i * 2, j * 2 + 1), (i * 2 + 1, j * 2))
  else if l1e = l2s then some ((i * 2 + 1, j * 2), (i * 2, j * 2 + 1))
  else if l1e = l2e then some ((i * 2 + 1, j * 2 + 1), (i * 2, j * 2))
  else none

/-- The parallelism test of the removal scan.  The source compares the
absolute dot product of the two normalized directions with `1.0`; for
nonzero direction vectors that equality holds exactly when
`(d1 . d2)^2 = |d1|^2 * |d2|^2` (the equality case of Cauchy-Schwarz),
which avoids square roots and is exact over `ℤ`. -/
def parallelTest (pts : List Vec2Z) (i j : ℕ) : Bool :=
  let d1 := pts.getD (i * 2) ⟨0, 0⟩ - pts.getD (i * 2 + 1) ⟨0, 0⟩
  let d2 := pts.getD (j * 2) ⟨0, 0⟩ - pts.getD (j * 2 + 1) ⟨0, 0⟩
  Vec2Z.dot d1 d2 * Vec2Z.dot d1 d2 == Vec2Z.lsq d1 * Vec2Z.lsq d2

/-- First removable pair in the scan order of the source (outer `i`,
then inner `j`, skipping `i = j`): a shared endpoint with parallel
directions. -/
def findRemoval (pts : List Vec2Z) (cnt : ℕ) : Option ((ℕ × ℕ) × (ℕ × ℕ)) :=
  (List.range cnt).findSome? fun i =>
    (List.range cnt).findSome? fun j =>
      if i = j then none
      else
        match sharedData pts i j with
        | none => none
        | some d => if parallelTest pts i j then some d else none

/-- Descending insertion. -/
def insertDesc (n : ℕ) : List ℕ → List ℕ
  | [] => [n]
  | m :: ms => if m ≤ n then n :: m :: ms else m :: insertDesc n ms

/-- Descending sort of the removal indices, matching the source's
ascending sort followed by a reverse. -/
def sortDesc (l : List ℕ) : List ℕ := l.foldr insertDesc []

/-- Apply one removal: delete the shared and unique vertices in
descending index order and push the two unique endpoints at the end. -/
def applyRemoval (pts : List Vec2Z) (d : (ℕ × ℕ) × (ℕ × ℕ)) : List Vec2Z :=
  let u1 := pts.getD d.2.1 ⟨0, 0⟩
  let u2 := pts.getD d.2.2 ⟨0, 0⟩
  let idxs := sortDesc [d.1.1, d.1.2, d.2.1, d.2.2]
  (idxs.foldl (fun l i => l.eraseIdx i) pts) ++ [u1, u2]

/-- Step 2, the removal fixpoint loop, fuelled: each iteration shortens
the list by one line, so any fuel at least the initial line count reaches
the source's fixpoint. -/
def removeCollinear : ℕ → List Vec2Z → List Vec2Z
  | 0, pts => pts
  | n + 1, pts =>
    match findRemoval pts (pts.length / 2) with
    | none => pts
    | some d => removeCollinear n (applyRemoval pts d)

/-- Step 3 coordinate transform: `x += offset.x; y := -y + offset.y`
with `offset = (cols * -g / 2, rows * g / 2)`.  The integer division is
exact whenever `cols * g` and `rows * g` are even, which holds for the
source's even grid size `32` used in all evaluations below; the `f32`
halving of the source is exact there too. -/
def transformPoints (grid : List (List ℕ)) (g : ℤ) (pts : List Vec2Z) :
    List Vec2Z :=
  let ox : ℤ := (rowLen grid 0 : ℤ) * (-g) / 2
  let oy : ℤ := (grid.length : ℤ) * g / 2
  pts.map fun p => ⟨p.x + ox, -p.y + oy⟩

/-- `level.rs` `calculate_winding_order`: the shoelace-variant sum over
consecutive vertices with wraparound. -/
def calculate_winding_order (vertices : List Vec2Z) : ℤ :=
  (List.range vertices.length).foldl
    (fun sum i =>
      let p1 := vertices.getD i ⟨0, 0⟩
      let p2 := vertices.getD ((i + 1) % vertices.length) ⟨0, 0⟩
      sum + (p2.x - p1.x) * (p2.y + p1.y)) 0

/-- Rust `f32::signum` over the exact integers, as applied to the
winding sum; an exact zero sum is the float `+0.0` and maps to `1`. -/
def signumz (x : ℤ) : ℤ := if x < 0 then -1 else 1

/-- Mathematical sign over `ℤ`. -/
def msignz (x : ℤ) : ℤ := if x < 0 then -1 else if x = 0 then 0 else 1

/-- Integer-coordinate bounding box of the builder. -/
structure AabbZ where
  min : Vec2Z
  max : Vec2Z
deriving DecidableEq

/-- Integer-coordinate polygon as assembled by the builder (the random
render color is omitted). -/
structure PolygonZ where
  points : List Vec2Z
  collision_side : ℤ
  aabb : AabbZ
deriving DecidableEq

/-- `level.rs` `compute_polygon_aabb`. -/
def compute_polygon_aabb (points : List Vec2Z) : AabbZ :=
  match points with
  | [] => ⟨⟨0, 0⟩, ⟨0, 0⟩⟩
  | p :: rest =>
    rest.foldl
      (fun a q =>
        ⟨⟨min a.min.x q.x, min a.min.y q.y⟩,
          ⟨max a.max.x q.x, max a.max.y q.y⟩⟩)
      ⟨⟨p.x, p.y⟩, ⟨p.x, p.y⟩⟩

/-- The polygon construction of the builder's final step: the ring, the
Rust-`signum` of its winding sum as `collision_side`, and the bounding
box. -/
def mkPolygon (ring : List Vec2Z) : PolygonZ :=
  ⟨ring, signumz (calculate_winding_order ring), compute_polygon_aabb ring⟩

/-- State of the ring-closing inner `while` loop of polygon assembly. -/
structure CloseState where
  start : Vec2Z
  current : Vec2Z
  ring : List Vec2Z
  pts : List Vec2Z
deriving DecidableEq

/-- Find the first remaining line touching `current`: its index and
whether it connects at its start vertex. -/
def findConnecting (pts : List Vec2Z) (cnt : ℕ) (current : Vec2Z) :
    Option (ℕ × Bool) :=
  (List.range cnt).findSome? fun i =>
    if pts.getD (i * 2) ⟨0, 0⟩ = current then some (i, true)
    else if pts.getD (i * 2 + 1) ⟨0, 0⟩ = current then some (i, false)
    else none

/-- One iteration of the ring-closing `while` loop: extend the ring by
the connecting line when one exists; when none exists the source's loop
body does nothing at all, so the state is returned unchanged and the
loop spins forever (see the C2 theorem). -/
def closeRingStep (s : CloseState) : CloseState :=
  match findConnecting s.pts (s.pts.length / 2) s.current with
  | none => s
  | some (i, atStart) =>
    let far := if atStart then s.pts.getD (i * 2 + 1) ⟨0, 0⟩
      else s.pts.getD (i * 2) ⟨0, 0⟩
    ⟨s.start, far, s.ring ++ [far],
      (s.pts.eraseIdx (i * 2)).eraseIdx (i * 2)⟩

/-- The ring-closing loop, fuelled; `none` models non-termination. -/
def closeRing : ℕ → CloseState → Option CloseState
  | 0, s => if s.current = s.start then some s else none
  | n + 1, s =>
    if s.current = s.start then some s else closeRing n (closeRingStep s)

/-- Step 4, the outer assembly loop, fuelled: pluck the first line,
close its ring, construct the polygon, recurse on the remaining lines. -/
def assemblePolygons : ℕ → List Vec2Z → Option (List PolygonZ)
  | 0, pts => if pts.length / 2 = 0 then some [] else none
  | n + 1, pts =>
    if pts.length / 2 = 0 then some []
    else
      let p0 := pts.getD 0 ⟨0, 0⟩
      let p1 := pts.getD 1 ⟨0, 0⟩
      let rest := (pts.eraseIdx 0).eraseIdx 0
      match closeRing (n + 1) ⟨p0, p1, [p0, p1], rest⟩ with
      | none => none
      | some s =>
        match assemblePolygons n s.pts with
        | none => none
        | some polys => some (mkPolygon s.ring :: polys)

/-- `level.rs` `generate_level_polygons` on an explicit grid (the JSON
asset is external input), fuelled for the two source loops without a
structural termination measure. -/
def generate_level_polygons (grid : List (List ℕ)) (g : ℤ) (fuel : ℕ) :
    Option (List PolygonZ) :=
  assemblePolygons fuel
    (transformPoints grid g (removeCollinear fuel (emitEdges grid g)))

/-- The stuck ring state reached from a single dangling edge
`(0,0)-(1,0)`: the first line was plucked into an open ring and no line
remains to close it. -/
def stuckC2 : CloseState := ⟨⟨0, 0⟩, ⟨1, 0⟩, [⟨0, 0⟩, ⟨1, 0⟩], []⟩

/-- The bow-tie grid: two diagonally adjacent solid squares whose corner
edges get merged by the collinear-removal pass across the pinch point. -/
def bowtieGrid : List (List ℕ) := [[1, 0], [0, 1]]

/-- The one-cell grid of the C10 witness. -/
def unitGrid : List (List ℕ) := [[1]]

theorem Vec2.add_def (a b : Vec2) : a + b = ⟨a.x + b.x, a.y + b.y⟩ := rfl

theorem Vec2.sub_def (a b : Vec2) : a - b = ⟨a.x - b.x, a.y - b.y⟩ := rfl

theorem Vec2.zero_def : (0 : Vec2) = ⟨0, 0⟩ := rfl

theorem Vec2.zero_x : (0 : Vec2).x = 0 := rfl

theorem Vec2.zero_y : (0 : Vec2).y = 0 := rfl

/-- A vector produced by `normalize_or_zero` has length `0` or `1`:
helper for the post-pass normal invariant. -/
theorem length_normalizeOrZero (v : Vec2) :
    Vec2.length (Vec2.normalizeOrZero v) = 0 ∨
    Vec2.length (Vec2.normalizeOrZero v) = 1 := by
  unfold Vec2.normalizeOrZero
  split_ifs with h
  · left
    simp [Vec2.length, Vec2.lsq]
  · right
    have hl : 0 < Vec2.lsq v := by
      have hx := mul_self_nonneg v.x
      have hy := mul_self_nonneg v.y
      rcases not_and_or.mp h with h1 | h1
      · have := mul_self_pos.mpr h1
        unfold Vec2.lsq
        nlinarith
      · have := mul_self_pos.mpr h1
        unfold Vec2.lsq
        nlinarith
    have hsq : Vec2.length v * Vec2.length v = v.x * v.x + v.y * v.y :=
      Real.mul_self_sqrt hl.le
    have key : Vec2.lsq (Vec2.normalize v) = 1 := by
      unfold Vec2.normalize Vec2.lsq
      dsimp
      rw [div_mul_div_comm, div_mul_div_comm, div_add_div_same, hsq]
      have hne : v.x * v.x + v.y * v.y ≠ 0 := by
        unfold Vec2.lsq at hl
        linarith
      exact div_self hne
    unfold Vec2.length
    rw [key, Real.sqrt_one]

/-- C9: after any resolver pass the stored physics normal has length `0`
(airborne, including a degenerate accumulated normal) or length `1`; no
other length is ever written back. -/
theorem c9_normal_unit_or_zero (level : List Polygon) (translation0 : Vec2)
    (ph : Physics) (pd : PlayerData) :
    Vec2.length ((s_collision level translation0 ph pd).physics.normal) = 0 ∨
    Vec2.length ((s_collision level translation0 ph pd).physics.normal) = 1 := by
  simp only [s_collision]
  exact length_normalizeOrZero _

/-- Closed-form evaluation of square roots of perfect rational squares,
used to evaluate the resolver on concrete inputs. -/
theorem sqrt_val (a b : ℝ) (hb : 0 ≤ b) (h : a = b ^ 2) : Real.sqrt a = b := by
  rw [h, Real.sqrt_sq hb]

/-- C3 amended: in the narrow-phase colliding branch the vertical
velocity is zeroed exactly when the unscaled unit push direction
`normalize_or_zero (pos - proj)` has `y < CEILING_NORMAL_Y_THRESHOLD`;
the test runs before the direction is scaled by the penetration depth
`radius - sqrt d2`. -/
theorem c3_velocity_zero_amended (ph : Physics) (player_pos : Vec2) (cs : ℝ)
    (s : CState) (e : Vec2 × Vec2)
    (hgate : side_of_line_detection e.1 e.2 ph.prev_position = cs)
    (hcol : (find_projection e.1 e.2 player_pos ph.radius).1 ≤ ph.radius ^ 2) :
    (edge_narrow ph player_pos cs s e).velocity.y =
      (if (Vec2.normalizeOrZero
            (player_pos - (find_projection e.1 e.2 player_pos ph.radius).2)).y <
          CEILING_NORMAL_Y_THRESHOLD then 0
        else s.velocity.y) := by
  simp only [edge_narrow, hgate, ne_eq, not_true_eq_false, if_false,
    ite_not]
  rw [if_pos hcol]
  split_ifs <;> rfl

/-- Evaluation of `find_projection` for the ceiling scenario: the foot of
the perpendicular is `(0,1)` and the squared distance is `(199/200)^2`. -/
theorem c3_fp_eval :
    find_projection ⟨-4, 1⟩ ⟨4, 1⟩ posC3 1 = (39601 / 40000, ⟨0, 1⟩) := by
  have h8 : Real.sqrt (64 : ℝ) = 8 := sqrt_val _ 8 (by norm_num) (by norm_num)
  norm_num [find_projection, posC3, Vec2.normalize, Vec2.length, Vec2.lsq,
    Vec2.dot, Vec2.smul, Vec2.sub_def, Vec2.add_def,
    DISTANCE_CALCULATION_RADIUS_MULTIPLIER, h8]

/-- The previous-side gate passes for the ceiling scenario. -/
theorem c3_gate_eval :
    side_of_line_detection ⟨-4, 1⟩ ⟨4, 1⟩ ⟨0, -1⟩ = -1 := by
  norm_num [side_of_line_detection, signumf]

/-- The raycast hits the single edge once: odd parity. -/
theorem c3_parity_eval : ray_parity posC3 segPolyC3 = 1 := by
  norm_num [ray_parity, segPolyC3, posC3, polygonEdges, line_intersect,
    cross_product, RAYCAST_DIRECTION, RAYCAST_DIRECTION_SCALE, Vec2.smul,
    Vec2.add_def, Vec2.sub_def]

/-- The polygon's single edge collides in the ceiling scenario. -/
theorem c3_collides_eval : polygon_collides phC3 posC3 segPolyC3 := by
  simp only [polygon_collides, segPolyC3, phC3, polygonEdges, List.tail_cons,
    List.zip_cons_cons, List.zip_nil_right, List.foldl_cons, List.foldl_nil]
  rw [c3_fp_eval]
  exact Or.inr ⟨c3_gate_eval, by norm_num⟩

/-- Narrow-phase evaluation for the ceiling scenario: the unscaled push
direction is `(0,-1)`, so the vertical velocity is zeroed, and the
accumulated adjustment becomes `(0,-1/200)`. -/
theorem c3_edge_eval :
    edge_narrow phC3 posC3 (-1) ⟨posC3, ⟨3, 5⟩, 0, 0, pdZero⟩ (⟨-4, 1⟩, ⟨4, 1⟩) =
      ⟨posC3, ⟨3, 0⟩, ⟨0, -1 / 200⟩, 0, pdZero⟩ := by
  have hs : Real.sqrt ((39601 : ℝ) / 40000) = 199 / 200 :=
    sqrt_val _ _ (by norm_num) (by norm_num)
  have hn : Vec2.normalizeOrZero (posC3 - ⟨0, 1⟩) = ⟨0, -1⟩ := by
    norm_num [posC3, Vec2.normalizeOrZero, Vec2.normalize, Vec2.length,
      Vec2.lsq, Vec2.sub_def, hs]
  simp only [edge_narrow, phC3, c3_fp_eval, c3_gate_eval]
  norm_num [hn, hs, CEILING_NORMAL_Y_THRESHOLD, TOUCH_THRESHOLD,
    GROUND_NORMAL_Y_THRESHOLD, NORMAL_DOT_THRESHOLD, Vec2.smul,
    Vec2.zero_x, Vec2.zero_y]

/-- Normalizing the zero vector yields the zero vector. -/
theorem normalizeOrZero_zero : Vec2.normalizeOrZero 0 = ⟨0, 0⟩ := by
  simp [Vec2.normalizeOrZero, Vec2.zero_x, Vec2.zero_y]

/-- Full resolver pass for the ceiling scenario: the rescue fires, the
adjustment is still added on top of `prev_position`, and the stored
velocity has its vertical component zeroed. -/
theorem c3_run_eval :
    s_collision [segPolyC3] posC3 phC3 pdZero =
      ⟨⟨0, -201 / 200⟩, ⟨⟨0, -1⟩, ⟨3, 0⟩, ⟨0, 0⟩, 1, ⟨0, 0⟩⟩, pdZero⟩ := by
  have hpts : segPolyC3.points = [⟨-4, 1⟩, ⟨4, 1⟩] := rfl
  have hcs : segPolyC3.collision_side = -1 := rfl
  have haabb : segPolyC3.aabb = ⟨⟨-4, 1⟩, ⟨4, 1⟩⟩ := rfl
  have hvel : phC3.velocity = ⟨3, 5⟩ := rfl
  have hrad : phC3.radius = 1 := rfl
  have hprev : phC3.prev_position = ⟨0, -1⟩ := rfl
  have hov : Aabb.overlaps
      (Aabb.expand (Aabb.from_point_radius posC3 1) (1 * (1 / 2)))
      (⟨⟨-4, 1⟩, ⟨4, 1⟩⟩ : Aabb) := by
    norm_num [Aabb.overlaps, Aabb.expand, Aabb.from_point_radius, posC3,
      Vec2.add_def, Vec2.sub_def]
  simp only [s_collision, poly_pass, hpts, hcs, haabb, hvel, hrad, hprev,
    List.foldl_cons, List.foldl_nil, polygonEdges, List.tail_cons,
    List.zip_cons_cons, List.zip_nil_right]
  rw [if_neg (not_not_intro hov), c3_edge_eval,
    if_pos ⟨c3_collides_eval, by rw [c3_parity_eval]⟩]
  norm_num [phC3, normalizeOrZero_zero, Vec2.add_def, Vec2.sub_def,
    Vec2.smul, Vec2.dot]

/-- C3 counterexample: in the ceiling scenario the penetration-scaled
push vector has `y = -1/200`, which is not below the ceiling threshold
`-1/100`, yet the resolver zeroes the vertical velocity (it tests the
unscaled unit direction, whose `y = -1`), so the claim's "exactly when"
with the scaled vector is false at this input. -/
theorem c3_ceiling_scaled_counterexample :
    (Vec2.smul
        (Vec2.normalizeOrZero
          (posC3 - (find_projection ⟨-4, 1⟩ ⟨4, 1⟩ posC3 1).2))
        (1 - Real.sqrt (find_projection ⟨-4, 1⟩ ⟨4, 1⟩ posC3 1).1)).y =
      -1 / 200 ∧
    ¬ ((-1 / 200 : ℝ) < CEILING_NORMAL_Y_THRESHOLD) ∧
    phC3.velocity.y = 5 ∧
    (s_collision [segPolyC3] posC3 phC3 pdZero).physics.velocity.y = 0 ∧
    (0 : ℝ) ≠ 5 := by
  have hs : Real.sqrt ((39601 : ℝ) / 40000) = 199 / 200 :=
    sqrt_val _ _ (by norm_num) (by norm_num)
  have hn : Vec2.normalizeOrZero (posC3 - ⟨0, 1⟩) = ⟨0, -1⟩ := by
    norm_num [posC3, Vec2.normalizeOrZero, Vec2.normalize, Vec2.length,
      Vec2.lsq, Vec2.sub_def, hs]
  refine ⟨?_, by norm_num [CEILING_NORMAL_Y_THRESHOLD], rfl,
    by rw [c3_run_eval], by norm_num⟩
  rw [c3_fp_eval]
  norm_num [hn, hs, Vec2.smul]

/-- C3 witness for the amended statement: the ceiling-scenario edge
satisfies the gate and the colliding hypothesis, and the amended rule
evaluates there. -/
theorem c3_velocity_zero_amended_witness :
    side_of_line_detection (⟨-4, 1⟩ : Vec2) ⟨4, 1⟩ phC3.prev_position = -1 ∧
    (find_projection ⟨-4, 1⟩ ⟨4, 1⟩ posC3 phC3.radius).1 ≤ phC3.radius ^ 2 ∧
    (edge_narrow phC3 posC3 (-1) ⟨posC3, ⟨3, 5⟩, 0, 0, pdZero⟩
        (⟨-4, 1⟩, ⟨4, 1⟩)).velocity.y =
      (if (Vec2.normalizeOrZero
            (posC3 - (find_projection ⟨-4, 1⟩ ⟨4, 1⟩ posC3 phC3.radius).2)).y <
          CEILING_NORMAL_Y_THRESHOLD then 0
        else (⟨3, 5⟩ : Vec2).y) := by
  have h1 : side_of_line_detection (⟨-4, 1⟩ : Vec2) ⟨4, 1⟩ phC3.prev_position = -1 :=
    c3_gate_eval
  have h2 : (find_projection ⟨-4, 1⟩ ⟨4, 1⟩ posC3 phC3.radius).1 ≤ phC3.radius ^ 2 := by
    rw [show phC3.radius = 1 from rfl, c3_fp_eval]
    norm_num
  exact ⟨h1, h2,
    c3_velocity_zero_amended phC3 posC3 (-1) ⟨posC3, ⟨3, 5⟩, 0, 0, pdZero⟩
      (⟨-4, 1⟩, ⟨4, 1⟩) h1 h2⟩

/-- Evaluation of `find_projection` on the square's bottom edge for the
rescue scenario. -/
theorem c1_fp_eval :
    find_projection ⟨0, 0⟩ ⟨4, 0⟩ ⟨2, 1 / 2⟩ 1 = (1 / 4, ⟨2, 0⟩) := by
  have h16 : Real.sqrt (16 : ℝ) = 4 := sqrt_val _ 4 (by norm_num) (by norm_num)
  norm_num [find_projection, Vec2.normalize, Vec2.length, Vec2.lsq,
    Vec2.dot, Vec2.smul, Vec2.sub_def, Vec2.add_def,
    DISTANCE_CALCULATION_RADIUS_MULTIPLIER, h16]

/-- The rescue scenario's previous position is on the collision side of
the bottom edge. -/
theorem c1_gate1_eval :
    side_of_line_detection ⟨0, 0⟩ ⟨4, 0⟩ ⟨2, -1⟩ = -1 := by
  norm_num [side_of_line_detection, signumf]

/-- The previous-side gate rejects the square's right edge. -/
theorem c1_gate2_eval :
    side_of_line_detection ⟨4, 0⟩ ⟨4, 4⟩ ⟨2, -1⟩ = 1 := by
  norm_num [side_of_line_detection, signumf]

/-- The previous-side gate rejects the square's top edge. -/
theorem c1_gate3_eval :
    side_of_line_detection ⟨4, 4⟩ ⟨0, 4⟩ ⟨2, -1⟩ = 1 := by
  norm_num [side_of_line_detection, signumf]

/-- The previous-side gate rejects the square's left edge. -/
theorem c1_gate4_eval :
    side_of_line_detection ⟨0, 4⟩ ⟨0, 0⟩ ⟨2, -1⟩ = 1 := by
  norm_num [side_of_line_detection, signumf]

/-- Gated-out edges leave the narrow-phase state unchanged. -/
theorem edge_narrow_gated (ph : Physics) (player_pos : Vec2) (cs : ℝ)
    (s : CState) (e : Vec2 × Vec2)
    (h : side_of_line_detection e.1 e.2 ph.prev_position ≠ cs) :
    edge_narrow ph player_pos cs s e = s := by
  simp only [edge_narrow]
  rw [if_pos h]

/-- Narrow-phase evaluation of the bottom edge in the rescue scenario:
the contact re-arms the grounded timer, accumulates the downward-pointing
negated normal and records the `(0, 1/2)` push adjustment. -/
theorem c1_edge1_eval :
    edge_narrow phC1 ⟨2, 1 / 2⟩ (-1) ⟨⟨2, 1 / 2⟩, ⟨0, 0⟩, 0, 0, pdZero⟩
        (⟨0, 0⟩, ⟨4, 0⟩) =
      ⟨⟨2, 1 / 2⟩, ⟨0, 0⟩, ⟨0, 1 / 2⟩, ⟨0, -1⟩, pdGroundedC1⟩ := by
  have hq : Real.sqrt ((1 : ℝ) / 4) = 1 / 2 :=
    sqrt_val _ _ (by norm_num) (by norm_num)
  have hn : Vec2.normalizeOrZero ⟨0, 1 / 2⟩ = ⟨0, 1⟩ := by
    norm_num [Vec2.normalizeOrZero, Vec2.normalize, Vec2.length,
      Vec2.lsq, hq]
  simp only [edge_narrow, phC1, c1_fp_eval, c1_gate1_eval]
  norm_num [hn, hq, CEILING_NORMAL_Y_THRESHOLD, TOUCH_THRESHOLD,
    GROUND_NORMAL_Y_THRESHOLD, NORMAL_DOT_THRESHOLD, MAX_GROUNDED_TIMER,
    Vec2.smul, Vec2.zero_x, Vec2.zero_y, pdZero, pdGroundedC1, Vec2.sub_def]

/-- The raycast from inside the square hits exactly its right edge: odd
parity. -/
theorem c1_parity_eval : ray_parity ⟨2, 1 / 2⟩ sqPolyC1 = 1 := by
  norm_num [ray_parity, sqPolyC1, polygonEdges, line_intersect,
    cross_product, RAYCAST_DIRECTION, RAYCAST_DIRECTION_SCALE, Vec2.smul,
    Vec2.add_def, Vec2.sub_def]

/-- The square's bottom edge collides in the rescue scenario. -/
theorem c1_collides_eval : polygon_collides phC1 ⟨2, 1 / 2⟩ sqPolyC1 := by
  simp only [polygon_collides, sqPolyC1, phC1, polygonEdges, List.tail_cons,
    List.zip_cons_cons, List.zip_nil_right, List.foldl_cons, List.foldl_nil]
  rw [c1_fp_eval]
  exact Or.inl (Or.inl (Or.inl (Or.inr ⟨c1_gate1_eval, by norm_num⟩)))

/-- Full resolver pass for the rescue scenario: the rescue snaps the
translation to `prev_position = (2,-1)` inside the loop, but the
accumulated adjustment `(0, 1/2)` is still added at the end, leaving the
final position `(2, -1/2)`. -/
theorem c1_run_eval :
    s_collision [sqPolyC1] posC1 phC1 pdZero =
      ⟨⟨2, -1 / 2⟩, ⟨⟨2, -1⟩, ⟨0, 0⟩, ⟨0, 0⟩, 1, ⟨0, -1⟩⟩, pdGroundedC1⟩ := by
  have hpts : sqPolyC1.points = [⟨0, 0⟩, ⟨4, 0⟩, ⟨4, 4⟩, ⟨0, 4⟩, ⟨0, 0⟩] := rfl
  have hcs : sqPolyC1.collision_side = -1 := rfl
  have haabb : sqPolyC1.aabb = ⟨⟨0, 0⟩, ⟨4, 4⟩⟩ := rfl
  have hvel : phC1.velocity = ⟨0, 0⟩ := rfl
  have hrad : phC1.radius = 1 := rfl
  have hprev : phC1.prev_position = ⟨2, -1⟩ := rfl
  have hone : Real.sqrt (1 : ℝ) = 1 := Real.sqrt_one
  have hov : Aabb.overlaps
      (Aabb.expand (Aabb.from_point_radius ⟨2, 1 / 2⟩ 1) (1 * (1 / 2)))
      (⟨⟨0, 0⟩, ⟨4, 4⟩⟩ : Aabb) := by
    norm_num [Aabb.overlaps, Aabb.expand, Aabb.from_point_radius,
      Vec2.add_def, Vec2.sub_def]
  have hnrm : Vec2.normalizeOrZero ⟨0, -1⟩ = ⟨0, -1⟩ := by
    norm_num [Vec2.normalizeOrZero, Vec2.normalize, Vec2.length, Vec2.lsq,
      hone]
  simp only [s_collision, poly_pass, posC1, hpts, hcs, haabb, hvel, hrad,
    hprev, List.foldl_cons, List.foldl_nil, polygonEdges, List.tail_cons,
    List.zip_cons_cons, List.zip_nil_right]
  have hg2 : side_of_line_detection ⟨4, 0⟩ ⟨4, 4⟩ phC1.prev_position ≠ -1 := by
    rw [hprev, c1_gate2_eval]
    norm_num
  have hg3 : side_of_line_detection ⟨4, 4⟩ ⟨0, 4⟩ phC1.prev_position ≠ -1 := by
    rw [hprev, c1_gate3_eval]
    norm_num
  have hg4 : side_of_line_detection ⟨0, 4⟩ ⟨0, 0⟩ phC1.prev_position ≠ -1 := by
    rw [hprev, c1_gate4_eval]
    norm_num
  rw [if_neg (not_not_intro hov), c1_edge1_eval,
    edge_narrow_gated _ _ _ _ (⟨4, 0⟩, ⟨4, 4⟩) hg2,
    edge_narrow_gated _ _ _ _ (⟨4, 4⟩, ⟨0, 4⟩) hg3,
    edge_narrow_gated _ _ _ _ (⟨0, 4⟩, ⟨0, 0⟩) hg4,
    if_pos ⟨c1_collides_eval, by rw [c1_parity_eval]⟩]
  norm_num [phC1, hnrm, Vec2.add_def, Vec2.sub_def, Vec2.smul, Vec2.dot]

/-- C1 counterexample: in the rescue scenario the rescue premises hold
(a bottom-edge collision and odd ray parity), yet the position at the end
of the resolver pass is `(2, -1/2)`, not `prev_position = (2, -1)`: the
accumulated adjustment is added on top of the rescue write. -/
theorem c1_rescue_counterexample :
    polygon_collides phC1 posC1 sqPolyC1 ∧
    ray_parity posC1 sqPolyC1 % 2 = 1 ∧
    (s_collision [sqPolyC1] posC1 phC1 pdZero).translation = ⟨2, -1 / 2⟩ ∧
    (⟨2, -1 / 2⟩ : Vec2) ≠ phC1.prev_position := by
  refine ⟨by rw [show posC1 = ⟨2, 1 / 2⟩ from rfl]; exact c1_collides_eval,
    by rw [show posC1 = ⟨2, 1 / 2⟩ from rfl, c1_parity_eval],
    by rw [c1_run_eval], ?_⟩
  intro h
  have := congrArg Vec2.y h
  simp only [phC1] at this
  norm_num at this

/-- C1 amended: when the rescue fires for a (single) polygon the
translation is set to `prev_position` during that polygon's pass, but the
accumulated adjustment is still added at the end of the resolver, so the
final position is `prev_position + adjustment`, not `prev_position`. -/
theorem c1_rescue_amended (poly : Polygon) (translation0 : Vec2) (ph : Physics)
    (pd : PlayerData)
    (hov : Aabb.overlaps
      (Aabb.expand (Aabb.from_point_radius translation0 ph.radius)
        (ph.radius * (1 / 2))) poly.aabb)
    (hcol : polygon_collides ph translation0 poly)
    (hpar : ray_parity translation0 poly % 2 = 1) :
    (s_collision [poly] translation0 ph pd).translation =
      ph.prev_position +
        ((polygonEdges poly.points).foldl
          (edge_narrow ph translation0 poly.collision_side)
          ⟨translation0, ph.velocity, 0, 0, pd⟩).adjustment := by
  simp only [s_collision, poly_pass, List.foldl_cons, List.foldl_nil]
  rw [if_neg (not_not_intro hov), if_pos ⟨hcol, hpar⟩]

/-- C1 witness for the amended statement, instantiated at the rescue
scenario. -/
theorem c1_rescue_amended_witness :
    Aabb.overlaps
      (Aabb.expand (Aabb.from_point_radius posC1 phC1.radius)
        (phC1.radius * (1 / 2))) sqPolyC1.aabb ∧
    polygon_collides phC1 posC1 sqPolyC1 ∧
    ray_parity posC1 sqPolyC1 % 2 = 1 ∧
    (s_collision [sqPolyC1] posC1 phC1 pdZero).translation =
      phC1.prev_position +
        ((polygonEdges sqPolyC1.points).foldl
          (edge_narrow phC1 posC1 sqPolyC1.collision_side)
          ⟨posC1, phC1.velocity, 0, 0, pdZero⟩).adjustment := by
  have hov : Aabb.overlaps
      (Aabb.expand (Aabb.from_point_radius posC1 phC1.radius)
        (phC1.radius * (1 / 2))) sqPolyC1.aabb := by
    norm_num [Aabb.overlaps, Aabb.expand, Aabb.from_point_radius, posC1,
      phC1, sqPolyC1, Vec2.add_def, Vec2.sub_def]
  have hcol : polygon_collides phC1 posC1 sqPolyC1 := by
    rw [show posC1 = ⟨2, 1 / 2⟩ from rfl]
    exact c1_collides_eval
  have hpar : ray_parity posC1 sqPolyC1 % 2 = 1 := by
    rw [show posC1 = ⟨2, 1 / 2⟩ from rfl, c1_parity_eval]
  exact ⟨hov, hcol, hpar,
    c1_rescue_amended sqPolyC1 posC1 phC1 pdZero hov hcol hpar⟩

theorem Vec2.add_y (a b : Vec2) : (a + b).y = a.y + b.y := rfl

theorem Vec2.sub_y (a b : Vec2) : (a - b).y = a.y - b.y := rfl

theorem Vec2.smul_y (a : Vec2) (k : ℝ) : (a.smul k).y = a.y * k := rfl

/-- C8: on a tick where the resolver wrote no re-arms, the timer pass
sends each timer value `t` (nonnegative, its reachable range) to
`max 0 (t - dt)`; in particular timers already at zero stay at zero. -/
theorem c8_timers_decay (pd : PlayerData) (dt : ℝ) (hdt : 0 ≤ dt)
    (hj : 0 ≤ pd.jump_timer) (hg : 0 ≤ pd.grounded_timer)
    (hw : 0 ≤ pd.wall_timer) :
    (s_timers dt pd).jump_timer = max 0 (pd.jump_timer - dt) ∧
    (s_timers dt pd).grounded_timer = max 0 (pd.grounded_timer - dt) ∧
    (s_timers dt pd).wall_timer = max 0 (pd.wall_timer - dt) := by
  simp only [s_timers]
  split_ifs <;> (try dsimp only at *) <;> refine ⟨?_, ?_, ?_⟩ <;>
    simp only [max_def] <;> split_ifs <;> linarith

/-- C8 witness: the decay law applied to concrete timers
`(1/10, 0, 2/100)` with `dt = 1/100`. -/
theorem c8_timers_decay_witness :
    (0 : ℝ) ≤ 1 / 100 ∧ 0 ≤ pdC8.jump_timer ∧ 0 ≤ pdC8.grounded_timer ∧
    0 ≤ pdC8.wall_timer ∧
    ((s_timers (1 / 100) pdC8).jump_timer = max 0 (pdC8.jump_timer - 1 / 100) ∧
      (s_timers (1 / 100) pdC8).grounded_timer =
        max 0 (pdC8.grounded_timer - 1 / 100) ∧
      (s_timers (1 / 100) pdC8).wall_timer =
        max 0 (pdC8.wall_timer - 1 / 100)) := by
  have h1 : (0 : ℝ) ≤ 1 / 100 := by norm_num
  have h2 : (0 : ℝ) ≤ pdC8.jump_timer := by norm_num [pdC8]
  have h3 : (0 : ℝ) ≤ pdC8.grounded_timer := by norm_num [pdC8]
  have h4 : (0 : ℝ) ≤ pdC8.wall_timer := by norm_num [pdC8]
  exact ⟨h1, h2, h3, h4, c8_timers_decay pdC8 (1 / 100) h1 h2 h3 h4⟩

/-- The input pass never changes the stored surface normal. -/
theorem s_input_normal (k : KeyInput) (pd : PlayerData) (ph : Physics) :
    (s_input k pd ph).ph.normal = ph.normal := by
  simp only [s_input]
  split_ifs <;> rfl

/-- The input pass never changes the grounded timer. -/
theorem s_input_grounded_timer (k : KeyInput) (pd : PlayerData) (ph : Physics) :
    (s_input k pd ph).pd.grounded_timer = pd.grounded_timer := by
  simp only [s_input]
  split_ifs <;> rfl

/-- On a flat floor (`normal = (0,1)`) a grounded jump in the movement
pass leaves `velocity.y` exactly at `JUMP_VELOCITY`: the acceleration's
normal component is removed, so integration adds nothing vertically. -/
theorem s_movement_grounded_jump (dir : Vec2) (dt : ℝ) (translation : Vec2)
    (ph : Physics) (pd : PlayerData) (hn : ph.normal = ⟨0, 1⟩)
    (hj : 0 < pd.jump_timer) (hg : 0 < pd.grounded_timer) :
    (s_movement dir dt translation ph pd).ph.velocity.y = JUMP_VELOCITY := by
  have hfallF : (Vec2.lsq (⟨0, 1⟩ : Vec2) < EPSILON) = False := by
    norm_num [Vec2.lsq, EPSILON]
  have hwallF : (NORMAL_DOT_THRESHOLD ≤ |(⟨0, 1⟩ : Vec2).x|) = False := by
    norm_num [NORMAL_DOT_THRESHOLD]
  simp only [s_movement, hn, hfallF, hwallF, false_and, false_or, if_false,
    not_false_eq_true, if_true]
  rw [if_pos hj, if_pos hg]
  simp only [Vec2.add_y, Vec2.smul_y, Vec2.sub_y, Vec2.dot]
  ring

/-- C4 amended: the variable-jump-height rule runs in the input pass,
before the movement integrator: on a tick with a space release and
`velocity.y > EPSILON` at input time, `velocity.y` is divided by `3`
there; and a grounded-jump impulse granted later in the same tick is not
reduced: the tick ends with `velocity.y = JUMP_VELOCITY`. -/
theorem c4_release_before_jump_amended :
    (∀ (k : KeyInput) (pd : PlayerData) (ph : Physics),
      k.space_released = true → EPSILON < ph.velocity.y →
      (s_input k pd ph).ph.velocity.y =
        ph.velocity.y / JUMP_RELEASE_VELOCITY_DIVISOR) ∧
    (∀ (k : KeyInput) (dt : ℝ) (translation : Vec2) (ph : Physics)
      (pd : PlayerData),
      ph.normal = ⟨0, 1⟩ →
      0 < (s_input k pd ph).pd.jump_timer →
      0 < pd.grounded_timer →
      (input_movement_tick k dt translation ph pd).ph.velocity.y =
        JUMP_VELOCITY) := by
  constructor
  · intro k pd ph hrel hvy
    simp only [s_input]
    rw [if_pos ⟨by rw [hrel], hvy⟩]
  · intro k dt translation ph pd hn hj hg
    have hn2 : (s_input k pd ph).ph.normal = ⟨0, 1⟩ := by
      rw [s_input_normal, hn]
    have hg2 : 0 < (s_input k pd ph).pd.grounded_timer := by
      rw [s_input_grounded_timer]
      exact hg
    exact s_movement_grounded_jump (s_input k pd ph).dir dt translation
      (s_input k pd ph).ph (s_input k pd ph).pd hn2 hj hg2

/-- C4 counterexample: on a tick with a space release, a buffered jump
and coyote time remaining, the tick ends with `velocity.y =
JUMP_VELOCITY = 540`, not `540 / 3`: the release rule ran in the input
pass (where `velocity.y = 0`), before the jump impulse, so the impulse
granted in the same tick is not reduced as the claim asserts. -/
theorem c4_release_counterexample :
    kC4.space_released = true ∧
    phC4.velocity.y = 0 ∧
    0 < pdC4.jump_timer ∧ 0 < pdC4.grounded_timer ∧
    (input_movement_tick kC4 (1 / 60) ⟨0, 0⟩ phC4 pdC4).ph.velocity.y =
      JUMP_VELOCITY ∧
    JUMP_VELOCITY ≠ JUMP_VELOCITY / JUMP_RELEASE_VELOCITY_DIVISOR := by
  have hn2 : (s_input kC4 pdC4 phC4).ph.normal = ⟨0, 1⟩ := by
    rw [s_input_normal]
    rfl
  have hj2 : 0 < (s_input kC4 pdC4 phC4).pd.jump_timer := by
    norm_num [s_input, kC4, pdC4]
  have hg2 : 0 < (s_input kC4 pdC4 phC4).pd.grounded_timer := by
    rw [s_input_grounded_timer]
    norm_num [pdC4]
  refine ⟨rfl, rfl, by norm_num [pdC4], by norm_num [pdC4], ?_,
    by norm_num [JUMP_VELOCITY, JUMP_RELEASE_VELOCITY_DIVISOR]⟩
  exact s_movement_grounded_jump (s_input kC4 pdC4 phC4).dir (1 / 60) ⟨0, 0⟩
    (s_input kC4 pdC4 phC4).ph (s_input kC4 pdC4 phC4).pd hn2 hj2 hg2

/-- C4 witness for the amended statement: both parts applied at concrete
inputs: the input-phase divide at upward velocity `600`, and the
unreduced grounded jump on the release tick. -/
theorem c4_release_before_jump_amended_witness :
    (kC4.space_released = true ∧ EPSILON < phC4b.velocity.y ∧
      (s_input kC4 pdC4 phC4b).ph.velocity.y =
        phC4b.velocity.y / JUMP_RELEASE_VELOCITY_DIVISOR) ∧
    (phC4.normal = ⟨0, 1⟩ ∧ 0 < (s_input kC4 pdC4 phC4).pd.jump_timer ∧
      0 < pdC4.grounded_timer ∧
      (input_movement_tick kC4 (1 / 60) ⟨0, 0⟩ phC4 pdC4).ph.velocity.y =
        JUMP_VELOCITY) := by
  have hv : EPSILON < phC4b.velocity.y := by norm_num [phC4b, EPSILON]
  have hj2 : 0 < (s_input kC4 pdC4 phC4).pd.jump_timer := by
    norm_num [s_input, kC4, pdC4]
  have hg : 0 < pdC4.grounded_timer := by norm_num [pdC4]
  exact ⟨⟨rfl, hv, c4_release_before_jump_amended.1 kC4 pdC4 phC4b rfl hv⟩,
    ⟨rfl, hj2, hg,
      c4_release_before_jump_amended.2 kC4 (1 / 60) ⟨0, 0⟩ phC4 pdC4 rfl hj2 hg⟩⟩

/-- C2: the polygon-assembly step does not terminate on an edge set with
a dangling edge.  The stuck state is a fixpoint of the ring-closing loop
body while the ring is still open, so the source's `while` loop (whose
body does nothing when no edge shares the open endpoint) spins forever;
nothing is dropped and no diagnostic is produced.  In the fuelled model
the inner loop and the whole assembly return `none` for every fuel. -/
theorem c2_assembly_stuck :
    closeRingStep stuckC2 = stuckC2 ∧
    stuckC2.current ≠ stuckC2.start ∧
    (∀ n, closeRing n stuckC2 = none) ∧
    (∀ n, assemblePolygons n [⟨0, 0⟩, ⟨1, 0⟩] = none) := by
  have hstep : closeRingStep stuckC2 = stuckC2 := by decide
  have hne : stuckC2.current ≠ stuckC2.start := by decide
  have hclose : ∀ n, closeRing n stuckC2 = none := by
    intro n
    induction n with
    | zero => decide
    | succ n ih =>
      show (if stuckC2.current = stuckC2.start then some stuckC2
        else closeRing n (closeRingStep stuckC2)) = none
      rw [if_neg hne, hstep, ih]
  refine ⟨hstep, hne, hclose, ?_⟩
  intro n
  cases n with
  | zero => decide
  | succ n =>
    have hred : assemblePolygons (n + 1) [⟨0, 0⟩, ⟨1, 0⟩] =
        (match closeRing (n + 1) stuckC2 with
        | none => none
        | some s =>
          match assemblePolygons n s.pts with
          | none => none
          | some polys => some (mkPolygon s.ring :: polys)) := rfl
    rw [hred, hclose (n + 1)]

/-- Every polygon in the assembly's output is `mkPolygon` of some ring. -/
theorem assemble_mem_mkPolygon (fuel : ℕ) (pts : List Vec2Z)
    (polys : List PolygonZ) (h : assemblePolygons fuel pts = some polys) :
    ∀ P ∈ polys, ∃ r, P = mkPolygon r := by
  induction fuel generalizing pts polys with
  | zero =>
    simp only [assemblePolygons] at h
    split_ifs at h
    · cases h
      simp
  | succ n ih =>
    simp only [assemblePolygons] at h
    split_ifs at h with hc
    · cases h
      simp
    · rcases hr : closeRing (n + 1)
          ⟨pts.getD 0 ⟨0, 0⟩, pts.getD 1 ⟨0, 0⟩,
            [pts.getD 0 ⟨0, 0⟩, pts.getD 1 ⟨0, 0⟩],
            (pts.eraseIdx 0).eraseIdx 0⟩ with _ | s
      · rw [hr] at h
        cases h
      · rw [hr] at h
        dsimp only at h
        rcases ha : assemblePolygons n s.pts with _ | ps
        · rw [ha] at h
          cases h
        · rw [ha] at h
          cases h
          intro P hP
          rcases List.mem_cons.mp hP with hP | hP
          · exact ⟨s.ring, hP⟩
          · exact ih s.pts ps ha P hP

/-- C10 counterexample: on the bow-tie grid the builder assembles the six
merged edges into a single self-intersecting ring whose shoelace sum is
exactly `0`; its `collision_side` is `1` (Rust `signum` of `+0.0`), while
the sign of the shoelace sum is `0`, so `collision_side` differs from the
sign of the shoelace sum for this produced polygon. -/
theorem c10_winding_counterexample :
    ((generate_level_polygons bowtieGrid 32 40).getD []).map
        (fun P => (P.collision_side, calculate_winding_order P.points)) =
      [(1, 0)] ∧
    msignz 0 = 0 ∧ (1 : ℤ) ≠ 0 := by
  exact ⟨by decide, by decide, by decide⟩

/-- C10 amended: every polygon produced by the level builder has
`collision_side ∈ {1, -1}` (Rust `f32::signum` never returns `0`), and
`collision_side` equals the sign of the shoelace sum of its ring whenever
that sum is nonzero; on a degenerate zero-sum ring it is `1`, not `0`. -/
theorem c10_collision_side_amended (grid : List (List ℕ)) (g : ℤ) (fuel : ℕ)
    (polys : List PolygonZ)
    (h : generate_level_polygons grid g fuel = some polys) :
    ∀ P ∈ polys,
      (P.collision_side = 1 ∨ P.collision_side = -1) ∧
      (calculate_winding_order P.points ≠ 0 →
        P.collision_side = msignz (calculate_winding_order P.points)) := by
  intro P hP
  obtain ⟨r, rfl⟩ := assemble_mem_mkPolygon fuel _ polys h P hP
  constructor
  · simp only [mkPolygon, signumz]
    split_ifs <;> simp
  · intro hw
    simp only [mkPolygon] at hw ⊢
    simp only [signumz, msignz]
    split_ifs <;> rfl

/-- C10 witness: the builder on the one-cell grid produces exactly the
square polygon, and the amended law holds for it (its winding sum is
`-2048` and its collision side `-1`). -/
theorem c10_collision_side_amended_witness :
    generate_level_polygons unitGrid 32 20 =
      some [mkPolygon [⟨-16, 16⟩, ⟨-16, -16⟩, ⟨16, -16⟩, ⟨16, 16⟩, ⟨-16, 16⟩]] ∧
    ∀ P ∈ [mkPolygon
        [(⟨-16, 16⟩ : Vec2Z), ⟨-16, -16⟩, ⟨16, -16⟩, ⟨16, 16⟩, ⟨-16, 16⟩]],
      (P.collision_side = 1 ∨ P.collision_side = -1) ∧
      (calculate_winding_order P.points ≠ 0 →
        P.collision_side = msignz (calculate_winding_order P.points)) := by
  have h : generate_level_polygons unitGrid 32 20 =
      some [mkPolygon
        [⟨-16, 16⟩, ⟨-16, -16⟩, ⟨16, -16⟩, ⟨16, 16⟩, ⟨-16, 16⟩]] := by decide
  exact ⟨h, c10_collision_side_amended unitGrid 32 20 _ h⟩

/-- C5 counterexample: with `a = (0,0)`, `b = (1,0)` and `p = (2,0)` the
point lies exactly on the line, the determinant is zero, yet
`side_of_line_detection` returns `1`, not the `0` the claim asserts
(Rust `f32::signum` never returns `0`). -/
theorem c5_side_of_line_counterexample :
    side_of_line_detection ⟨0, 0⟩ ⟨1, 0⟩ ⟨2, 0⟩ = 1 ∧
    ((1 : ℝ) - 0) * ((0 : ℝ) - 0) - ((0 : ℝ) - 0) * ((2 : ℝ) - 0) = 0 ∧
    (1 : ℝ) ≠ 0 := by
  refine ⟨?_, by norm_num, by norm_num⟩
  simp only [side_of_line_detection, signumf]
  norm_num

/-- C5 amended: `side_of_line_detection` returns the sign of the
orientation determinant whenever that determinant is nonzero, and returns
`1` (not `0`) on a zero determinant; its value is always `-1` or `1`. -/
theorem c5_side_of_line_amended (a b p : Vec2) :
    side_of_line_detection a b p =
      (if (b.x - a.x) * (p.y - a.y) - (b.y - a.y) * (p.x - a.x) = 0 then 1
        else msign ((b.x - a.x) * (p.y - a.y) - (b.y - a.y) * (p.x - a.x))) ∧
    (side_of_line_detection a b p = 1 ∨ side_of_line_detection a b p = -1) := by
  simp only [side_of_line_detection, signumf, msign]
  constructor
  · split_ifs with h1 h2 h3 <;> first | rfl | linarith
  · split_ifs <;> simp

/-- C7: for parallel (including collinear and degenerate) segments the
cross product of the two direction vectors vanishes and `line_intersect`
reports no intersection: in the source the division by the zero cross
product produces NaN or infinite parameters and the `[0,1]` range test
fails for those, which the model's zero-divisor branch reproduces. -/
theorem c7_line_intersect_parallel (p1 p2 p3 p4 : Vec2)
    (h : (p2.x - p1.x) * (p4.y - p3.y) = (p2.y - p1.y) * (p4.x - p3.x)) :
    line_intersect p1 p2 p3 p4 = none := by
  simp only [line_intersect, cross_product, Vec2.sub_def]
  rw [if_pos (by linarith)]

/-- C6: for a non-degenerate segment `a..b`, writing
`t = (p - a) · normalize (b - a)`, `find_projection` returns
`(|p - a|^2 + 2r, a + normalize (b - a) * t)` when `t < 0`,
`(|p - b|^2 + 2r, a + normalize (b - a) * t)` when `t^2 > |b - a|^2`, and
otherwise the squared distance to the perpendicular foot together with
that foot. -/
theorem c6_find_projection_spec (a b p : Vec2) (r : ℝ) (_hab : a ≠ b) :
    find_projection a b p r =
      (if Vec2.dot (p - a) (Vec2.normalize (b - a)) < 0 then
        (Vec2.lsq (p - a) + 2 * r,
          a + Vec2.smul (Vec2.normalize (b - a))
            (Vec2.dot (p - a) (Vec2.normalize (b - a))))
      else if (Vec2.dot (p - a) (Vec2.normalize (b - a))) ^ 2 >
          Vec2.lsq (b - a) then
        (Vec2.lsq (p - b) + 2 * r,
          a + Vec2.smul (Vec2.normalize (b - a))
            (Vec2.dot (p - a) (Vec2.normalize (b - a))))
      else
        (Vec2.lsq (p - (a + Vec2.smul (Vec2.normalize (b - a))
            (Vec2.dot (p - a) (Vec2.normalize (b - a))))),
          a + Vec2.smul (Vec2.normalize (b - a))
            (Vec2.dot (p - a) (Vec2.normalize (b - a))))) := by
  have hadd : ∀ v : Vec2, Vec2.smul v (Vec2.dot (p - a) v) + a =
      a + Vec2.smul v (Vec2.dot (p - a) v) := by
    intro v
    simp only [Vec2.add_def, Vec2.smul]
    ext <;> dsimp <;> ring
  simp only [find_projection, DISTANCE_CALCULATION_RADIUS_MULTIPLIER, hadd]
  split_ifs with h1 h2
  · exact congrArg₂ Prod.mk (by ring) rfl
  · exact congrArg₂ Prod.mk (by ring) rfl
  · rfl

/-- C6 witness: instantiation of `c6_find_projection_spec` at the segment
`(0,0)-(1,0)`, the point `(2,3)` and radius `1`. -/
theorem c6_find_projection_spec_witness :
    (⟨0, 0⟩ : Vec2) ≠ ⟨1, 0⟩ ∧
    find_projection ⟨0, 0⟩ ⟨1, 0⟩ ⟨2, 3⟩ 1 =
      (if Vec2.dot ((⟨2, 3⟩ : Vec2) - ⟨0, 0⟩)
          (Vec2.normalize ((⟨1, 0⟩ : Vec2) - ⟨0, 0⟩)) < 0 then
        (Vec2.lsq ((⟨2, 3⟩ : Vec2) - ⟨0, 0⟩) + 2 * 1,
          (⟨0, 0⟩ : Vec2) + Vec2.smul
            (Vec2.normalize ((⟨1, 0⟩ : Vec2) - ⟨0, 0⟩))
            (Vec2.dot ((⟨2, 3⟩ : Vec2) - ⟨0, 0⟩)
              (Vec2.normalize ((⟨1, 0⟩ : Vec2) - ⟨0, 0⟩))))
      else if (Vec2.dot ((⟨2, 3⟩ : Vec2) - ⟨0, 0⟩)
          (Vec2.normalize ((⟨1, 0⟩ : Vec2) - ⟨0, 0⟩))) ^ 2 >
          Vec2.lsq ((⟨1, 0⟩ : Vec2) - ⟨0, 0⟩) then
        (Vec2.lsq ((⟨2, 3⟩ : Vec2) - ⟨1, 0⟩) + 2 * 1,
          (⟨0, 0⟩ : Vec2) + Vec2.smul
            (Vec2.normalize ((⟨1, 0⟩ : Vec2) - ⟨0, 0⟩))
            (Vec2.dot ((⟨2, 3⟩ : Vec2) - ⟨0, 0⟩)
              (Vec2.normalize ((⟨1, 0⟩ : Vec2) - ⟨0, 0⟩))))
      else
        (Vec2.lsq ((⟨2, 3⟩ : Vec2) -
            ((⟨0, 0⟩ : Vec2) + Vec2.smul
              (Vec2.normalize ((⟨1, 0⟩ : Vec2) - ⟨0, 0⟩))
              (Vec2.dot ((⟨2, 3⟩ : Vec2) - ⟨0, 0⟩)
                (Vec2.normalize ((⟨1, 0⟩ : Vec2) - ⟨0, 0⟩))))),
          (⟨0, 0⟩ : Vec2) + Vec2.smul
            (Vec2.normalize ((⟨1, 0⟩ : Vec2) - ⟨0, 0⟩))
            (Vec2.dot ((⟨2, 3⟩ : Vec2) - ⟨0, 0⟩)
              (Vec2.normalize ((⟨1, 0⟩ : Vec2) - ⟨0, 0⟩))))) := by
  have h : (⟨0, 0⟩ : Vec2) ≠ ⟨1, 0⟩ := by
    intro hc
    have := congrArg Vec2.x hc
    norm_num at this
  exact ⟨h, c6_find_projection_spec _ _ _ _ h⟩

/-- C7 witness: the horizontal segments `(0,0)-(1,0)` and `(0,1)-(2,1)`
are parallel and produce no intersection. -/
theorem c7_line_intersect_parallel_witness :
    ((1 : ℝ) - 0) * ((1 : ℝ) - 1) = ((0 : ℝ) - 0) * ((2 : ℝ) - 0) ∧
    line_intersect ⟨0, 0⟩ ⟨1, 0⟩ ⟨0, 1⟩ ⟨2, 1⟩ = none := by
  refine ⟨by norm_num, c7_line_intersect_parallel _ _ _ _ (by norm_num)⟩

